import Mathlib

/-!
Shallow embedding of the cleaning-and-aggregation core of the Starbucks store
analysis program (data_processor.py, analyzer.py, visualizer.py) and proofs of
its specified properties.  Cells are optional strings (a missing pandas value is
none); a data frame is a column schema together with an ordered list of rows.
-/

namespace StarbucksAnalysis

/-- Cell value of a data frame: a string entry, or none for a missing (NaN) value. -/
abbrev Value := Option String

/-- Row of a data frame (a pandas Series as seen by row-wise iteration): an
association list from column name to cell value. -/
abbrev Row := List (String × Value)

/-- Reading a named field of a row, as in the pandas expression row[c].  A column
absent from the row reads as a missing value; the pipeline only reads columns
that are present. -/
def rowGet : Row → String → Value
  | [], _ => none
  | (k, v) :: r, c => if k = c then v else rowGet r c

/-- Writing a named field of a row: replaces the first binding of the column,
appending a new binding when the column is absent (pandas column assignment). -/
def rowSet : Row → String → Value → Row
  | [], c, v => [(c, v)]
  | (k, w) :: r, c, v => if k = c then (c, v) :: r else (k, w) :: rowSet r c v

/-- Data frame: a column schema plus an ordered list of rows. -/
structure Table where
  schema : List String
  rows : List Row
  deriving DecidableEq

/-- Values of one column in row order, as in selecting df[c]. -/
def colValues (t : Table) (c : String) : List Value :=
  t.rows.map (fun r => rowGet r c)

/-- Assigning a whole column, as in df[c] = vals: each row receives its entry in
order, and the schema gains the column when it is new. -/
def setColumn (t : Table) (c : String) (vals : List Value) : Table :=
  { schema := if c ∈ t.schema then t.schema else t.schema ++ [c],
    rows := List.zipWith (fun r v => rowSet r c v) t.rows vals }

/-- Occurrences of a string in a list of strings. -/
def countVal : List String → String → Nat
  | [], _ => 0
  | x :: xs, v => (if x = v then 1 else 0) + countVal xs v

/-- Auxiliary recursion for first-occurrence deduplication: drops the elements
already seen. -/
def dedupAux : List String → List String → List String
  | [], _ => []
  | x :: xs, seen => if x ∈ seen then dedupAux xs seen else x :: dedupAux xs (x :: seen)

/-- Distinct elements of a list, keeping first occurrences in their order (the
order a pandas groupby-based frequency count enumerates values in). -/
def dedupF (xs : List String) : List String :=
  dedupAux xs []

/-- Descending-by-count ordering used by the frequency sort. -/
def cntGe (a b : String × Nat) : Prop := b.2 ≤ a.2

instance : DecidableRel cntGe := fun a b => inferInstanceAs (Decidable (b.2 ≤ a.2))

instance : IsTotal (String × Nat) cntGe := ⟨fun a b => Nat.le_total b.2 a.2⟩

instance : IsTrans (String × Nat) cntGe := ⟨fun _ _ _ h1 h2 => Nat.le_trans h2 h1⟩

/-- Frequency table of the non-null values of a column, as computed by the pandas
value_counts method: (value, count) pairs over the distinct non-null values,
sorted by count in descending order by a stable sort, so that equal counts keep
first-occurrence order. -/
def value_counts (xs : List Value) : List (String × Nat) :=
  List.insertionSort cntGe
    ((dedupF (xs.filterMap id)).map (fun v => (v, countVal (xs.filterMap id) v)))

/-- Number of distinct non-null values of a column, as computed by the pandas
nunique method. -/
def nunique (xs : List Value) : Nat :=
  (dedupF (xs.filterMap id)).length

/-- Source: data_processor.py, fill_city.  Returns the State/Province field when
the City field is null, the City field otherwise. -/
def fill_city (row : Row) : Value :=
  if (rowGet row "City").isNone then rowGet row "State/Province" else rowGet row "City"

/-- Modelled from the spec: fill_missing(row, primary_field, fallback_field) of the
Transform Engine, which the source only provides instantiated as fill_city with
primary field City and fallback field State/Province.  Returns the primary field
if non-null, else the fallback field. -/
def fill_missing (row : Row) (primary_field fallback_field : String) : Value :=
  if (rowGet row primary_field).isNone then rowGet row fallback_field
  else rowGet row primary_field

/-- State of a DataProcessor: its data frame.  The configuration attribute of the
class only stores file paths and never touches the frame. -/
structure DataProcessor where
  df : Table
  deriving DecidableEq

/-- Source: data_processor.py, DataProcessor.apply_function.  Evaluates func on
every row of the current frame (df.apply(func, axis=1)) and then assigns the
resulting vector to the column. -/
def apply_function (p : DataProcessor) (func : Row → Value) (column : String) : DataProcessor :=
  ⟨setColumn p.df column (p.df.rows.map func)⟩

/-- Lookup in a Python dict with string keys. -/
def dictGet : List (String × String) → String → Option String
  | [], _ => none
  | (k, w) :: m, v => if k = v then some w else dictGet m v

/-- Elementwise action of the pandas Series.replace(value_map) method on one cell:
a value that is a key of the map becomes its image, any other value (a missing
cell included) is unchanged, and no lookup failure is possible. -/
def replaceValue (value_map : List (String × String)) (v : Value) : Value :=
  match v with
  | none => none
  | some s =>
    match dictGet value_map s with
    | some w => some w
    | none => some s

/-- Source: data_processor.py, DataProcessor.replace_values.  Applies
Series.replace(value_map) to the column and assigns it back. -/
def replace_values (p : DataProcessor) (column : String) (value_map : List (String × String)) :
    DataProcessor :=
  ⟨setColumn p.df column ((colValues p.df column).map (replaceValue value_map))⟩

/-- Source: data_processor.py, DataProcessor.filter_by_country.  Builds the frame
of rows whose Country field equals the given code (boolean-mask selection, which
allocates a new frame); the processor state is returned unchanged alongside,
since the method only reads self.df. -/
def filter_by_country (p : DataProcessor) (country_code : String) : Table × DataProcessor :=
  (⟨p.df.schema, p.df.rows.filter (fun r => rowGet r "Country" == some country_code)⟩, p)

/-- Source: data_processor.py, DataProcessor.missing_data.  Per-column null counts
of the frame (df.isnull().sum()), restricted to the columns whose count is
positive. -/
def missing_data (p : DataProcessor) : List (String × Nat) :=
  (p.df.schema.map (fun c => (c, (colValues p.df c).countP (fun v => v.isNone)))).filter
    (fun q => decide (0 < q.2))

/-- Result record of Analyzer.analyze_data. -/
structure Stats where
  total_stores : Nat
  total_countries : Nat
  top_country : String
  top_city : String
  deriving DecidableEq

/-- Source: analyzer.py, Analyzer.analyze_data.  The two value_counts().index[0]
selections raise on an empty frequency index (in particular on a frame with no
rows); that failure is modelled as none. -/
def analyze_data (df : Table) : Option Stats :=
  match (value_counts (colValues df "Country")).head?, (value_counts (colValues df "City")).head? with
  | some pc, some pt =>
    some { total_stores := nunique (colValues df "Store Number"),
           total_countries := nunique (colValues df "Country"),
           top_country := pc.1,
           top_city := pt.1 }
  | _, _ => none

/-- Core of Visualizer.plot_top_countries and its siblings: the plotted series is
df[column].value_counts().nlargest(n).  Since value_counts is already sorted by
count in descending order and nlargest keeps the earliest of equal entries, the
selection equals taking the first n entries of the frequency table. -/
def top_counts (df : Table) (column : String) (n : Nat) : List (String × Nat) :=
  (value_counts (colValues df column)).take n

/-- Source: visualizer.py, Visualizer.plot_top_countries with its default n = 10:
the data series handed to the bar plot. -/
def plot_top_countries_data (df : Table) (n : Nat) : List (String × Nat) :=
  top_counts df "Country" n

/-- Number of rows of a table whose column holds a given non-null value
(spec-side notion of the row-count of a value). -/
def rowCount (t : Table) (c : String) (v : String) : Nat :=
  t.rows.countP (fun r => rowGet r c == some v)

/-- Count of distinct non-null values of a column, stated spec-side as the
cardinality of the set of values. -/
def distinctCount (t : Table) (c : String) : Nat :=
  ((colValues t c).filterMap id).toFinset.card

/-- A value achieving the maximum row-count in a column and appearing in at least
one row (spec-side notion of a mode). -/
def isTopValue (t : Table) (c : String) (v : String) : Prop :=
  0 < rowCount t c v ∧ ∀ w, rowCount t c w ≤ rowCount t c v

/-- Number of null cells of a column, stated spec-side over the rows. -/
def nullCount (t : Table) (c : String) : Nat :=
  t.rows.countP (fun r => (rowGet r c).isNone)

theorem rowGet_rowSet_self (r : Row) (c : String) (v : Value) :
    rowGet (rowSet r c v) c = v := by
  induction r with
  | nil => simp [rowSet, rowGet]
  | cons p r ih =>
    obtain ⟨k, w⟩ := p
    by_cases hk : k = c
    · simp [rowSet, rowGet, hk]
    · simp [rowSet, rowGet, hk, ih]

theorem rowGet_rowSet_ne (r : Row) (c c' : String) (v : Value) (h : c' ≠ c) :
    rowGet (rowSet r c v) c' = rowGet r c' := by
  have hcc : c ≠ c' := Ne.symm h
  induction r with
  | nil => simp [rowSet, rowGet, hcc]
  | cons p r ih =>
    obtain ⟨k, w⟩ := p
    by_cases hk : k = c
    · subst hk
      simp [rowSet, rowGet, hcc]
    · simp [rowSet, rowGet, hk, ih]

theorem rowSet_rowSet (r : Row) (c : String) (v w : Value) :
    rowSet (rowSet r c v) c w = rowSet r c w := by
  induction r with
  | nil => simp [rowSet]
  | cons p r ih =>
    obtain ⟨k, u⟩ := p
    by_cases hk : k = c
    · simp [rowSet, hk]
    · simp [rowSet, hk, ih]

theorem zipWith_map_self {α β γ : Type} (f : α → β → γ) (g : α → β) (l : List α) :
    List.zipWith f l (l.map g) = l.map (fun x => f x (g x)) := by
  induction l with
  | nil => rfl
  | cons x l ih => simp [ih]

theorem setColumn_rows_map (t : Table) (c : String) (g : Row → Value) :
    (setColumn t c (t.rows.map g)).rows = t.rows.map (fun r => rowSet r c (g r)) := by
  simp [setColumn, zipWith_map_self]

theorem mem_schema_setColumn (t : Table) (c : String) (vals : List Value) :
    c ∈ (setColumn t c vals).schema := by
  by_cases h : c ∈ t.schema
  · simp [setColumn, h]
  · simp [setColumn, h]

theorem schema_setColumn_of_mem (t : Table) (c : String) (vals : List Value)
    (h : c ∈ t.schema) : (setColumn t c vals).schema = t.schema := by
  simp [setColumn, h]

theorem countVal_pos_iff (xs : List String) (v : String) :
    0 < countVal xs v ↔ v ∈ xs := by
  induction xs with
  | nil => simp [countVal]
  | cons x xs ih =>
    by_cases hx : x = v
    · subst hx
      simp [countVal]
    · have hvx : v ≠ x := fun hv => hx hv.symm
      simp [countVal, hx, hvx, ih]

theorem countVal_eq_zero_of_not_mem (xs : List String) (v : String) (h : v ∉ xs) :
    countVal xs v = 0 := by
  by_contra hne
  exact h ((countVal_pos_iff xs v).mp (Nat.pos_of_ne_zero hne))

theorem countVal_eq_countP (xs : List String) (v : String) :
    countVal xs v = xs.countP (fun x => x == v) := by
  induction xs with
  | nil => rfl
  | cons x xs ih =>
    by_cases hx : x = v
    · simp [countVal, List.countP_cons, hx, ih, Nat.add_comm]
    · simp [countVal, List.countP_cons, hx, ih]

theorem countVal_filterMap (xs : List Value) (v : String) :
    countVal (xs.filterMap id) v = xs.countP (fun x => x == some v) := by
  induction xs with
  | nil => rfl
  | cons x xs ih =>
    cases x with
    | none => simpa [List.countP_cons] using ih
    | some s =>
      by_cases hs : s = v
      · simp [List.countP_cons, hs, countVal, ih, Nat.add_comm]
      · simp [List.countP_cons, hs, countVal, ih]

theorem mem_dedupAux (a : String) (xs : List String) :
    ∀ seen : List String, a ∈ dedupAux xs seen ↔ a ∈ xs ∧ a ∉ seen := by
  induction xs with
  | nil => intro seen; simp [dedupAux]
  | cons x xs ih =>
    intro seen
    by_cases hx : x ∈ seen
    · rw [dedupAux, if_pos hx, ih seen]
      constructor
      · rintro ⟨h1, h2⟩
        exact ⟨List.mem_cons_of_mem _ h1, h2⟩
      · rintro ⟨h1, h2⟩
        rcases List.mem_cons.mp h1 with rfl | h1
        · exact absurd hx h2
        · exact ⟨h1, h2⟩
    · rw [dedupAux, if_neg hx]
      constructor
      · intro hmem
        rcases List.mem_cons.mp hmem with rfl | hmem
        · exact ⟨List.mem_cons_self _ _, hx⟩
        · rcases (ih (x :: seen)).mp hmem with ⟨h1, h2⟩
          refine ⟨List.mem_cons_of_mem _ h1, fun hs => h2 (List.mem_cons_of_mem _ hs)⟩
      · rintro ⟨h1, h2⟩
        rcases List.mem_cons.mp h1 with rfl | h1
        · exact List.mem_cons_self _ _
        · by_cases hax : a = x
          · subst hax
            exact List.mem_cons_self _ _
          · refine List.mem_cons_of_mem _ ((ih (x :: seen)).mpr ⟨h1, ?_⟩)
            intro hmem
            rcases List.mem_cons.mp hmem with h | h
            · exact hax h
            · exact h2 h

theorem nodup_dedupAux (xs : List String) :
    ∀ seen : List String, (dedupAux xs seen).Nodup := by
  induction xs with
  | nil => intro seen; simp [dedupAux]
  | cons x xs ih =>
    intro seen
    by_cases hx : x ∈ seen
    · rw [dedupAux, if_pos hx]
      exact ih seen
    · rw [dedupAux, if_neg hx]
      refine List.nodup_cons.mpr ⟨?_, ih (x :: seen)⟩
      intro hmem
      exact ((mem_dedupAux x xs (x :: seen)).mp hmem).2 (List.mem_cons_self _ _)

theorem mem_dedupF (a : String) (xs : List String) : a ∈ dedupF xs ↔ a ∈ xs := by
  rw [dedupF, mem_dedupAux]
  simp

theorem nodup_dedupF (xs : List String) : (dedupF xs).Nodup :=
  nodup_dedupAux xs []

theorem toFinset_dedupF (xs : List String) : (dedupF xs).toFinset = xs.toFinset := by
  ext a
  simp [mem_dedupF]

theorem length_dedupF (xs : List String) : (dedupF xs).length = xs.toFinset.card := by
  rw [← List.toFinset_card_of_nodup (nodup_dedupF xs), toFinset_dedupF]

theorem dedupF_ne_nil (xs : List String) (h : xs ≠ []) : dedupF xs ≠ [] := by
  obtain ⟨x, hx⟩ := List.exists_mem_of_ne_nil xs h
  intro hnil
  rw [← mem_dedupF x xs, hnil] at hx
  exact (List.not_mem_nil x) hx

theorem value_counts_perm (xs : List Value) :
    (value_counts xs).Perm
      ((dedupF (xs.filterMap id)).map (fun v => (v, countVal (xs.filterMap id) v))) :=
  List.perm_insertionSort cntGe _

theorem value_counts_sorted (xs : List Value) :
    (value_counts xs).Sorted cntGe :=
  List.sorted_insertionSort cntGe _

theorem mem_value_counts (xs : List Value) (a : String) (b : Nat) :
    (a, b) ∈ value_counts xs ↔
      a ∈ xs.filterMap id ∧ b = countVal (xs.filterMap id) a := by
  rw [(value_counts_perm xs).mem_iff, List.mem_map]
  constructor
  · rintro ⟨v, hv, heq⟩
    obtain ⟨h1, h2⟩ : v = a ∧ countVal (xs.filterMap id) v = b := by
      simpa [Prod.ext_iff] using heq
    constructor
    · rw [← h1]
      exact (mem_dedupF v _).mp hv
    · rw [← h1, h2]
  · rintro ⟨h1, rfl⟩
    exact ⟨a, (mem_dedupF a _).mpr h1, rfl⟩

theorem value_counts_head_max (xs : List Value) (q : String × Nat)
    (h : (value_counts xs).head? = some q) :
    q.1 ∈ xs.filterMap id ∧ q.2 = countVal (xs.filterMap id) q.1 ∧
      ∀ w, countVal (xs.filterMap id) w ≤ q.2 := by
  obtain ⟨rest, hvc⟩ : ∃ rest, value_counts xs = q :: rest := by
    cases hv : value_counts xs with
    | nil => rw [hv] at h; simp at h
    | cons p rest =>
      rw [hv] at h
      simp at h
      exact ⟨rest, by rw [h]⟩
  have hqmem : q ∈ value_counts xs := by
    rw [hvc]
    exact List.mem_cons_self _ _
  obtain ⟨h1, h2⟩ := (mem_value_counts xs q.1 q.2).mp hqmem
  refine ⟨h1, h2, ?_⟩
  intro w
  by_cases hw : w ∈ xs.filterMap id
  · have hmem : (w, countVal (xs.filterMap id) w) ∈ value_counts xs :=
      (mem_value_counts xs w _).mpr ⟨hw, rfl⟩
    rw [hvc] at hmem
    rcases List.mem_cons.mp hmem with heq | hmem
    · exact Nat.le_of_eq (congrArg Prod.snd heq)
    · have hs := value_counts_sorted xs
      rw [hvc] at hs
      exact (List.sorted_cons.mp hs).1 _ hmem
  · rw [countVal_eq_zero_of_not_mem _ _ hw]
    exact Nat.zero_le _

theorem value_counts_length (xs : List Value) :
    (value_counts xs).length = nunique xs := by
  rw [(value_counts_perm xs).length_eq, List.length_map, nunique]

theorem value_counts_head_isSome (xs : List Value) (v : String) (h : some v ∈ xs) :
    ∃ q, (value_counts xs).head? = some q := by
  have hv : v ∈ xs.filterMap id := by
    rw [List.mem_filterMap]
    exact ⟨some v, h, rfl⟩
  have hmem : (v, countVal (xs.filterMap id) v) ∈ value_counts xs :=
    (mem_value_counts xs v _).mpr ⟨hv, rfl⟩
  cases hvc : value_counts xs with
  | nil =>
    rw [hvc] at hmem
    exact absurd hmem (List.not_mem_nil _)
  | cons p rest => exact ⟨p, rfl⟩

theorem nunique_eq_distinctCount (t : Table) (c : String) :
    nunique (colValues t c) = distinctCount t c := by
  rw [nunique, length_dedupF, distinctCount]

theorem rowCount_eq_countVal (t : Table) (c : String) (v : String) :
    rowCount t c v = countVal ((colValues t c).filterMap id) v := by
  rw [countVal_filterMap, rowCount, colValues, List.countP_map]
  rfl

theorem nullCount_eq_colValues (t : Table) (c : String) :
    (colValues t c).countP (fun v => v.isNone) = nullCount t c := by
  rw [colValues, List.countP_map, nullCount]
  rfl

theorem isTopValue_of_head (t : Table) (c : String) (q : String × Nat)
    (h : (value_counts (colValues t c)).head? = some q) : isTopValue t c q.1 := by
  obtain ⟨h1, h2, h3⟩ := value_counts_head_max _ q h
  constructor
  · rw [rowCount_eq_countVal, countVal_pos_iff]
    exact h1
  · intro w
    rw [rowCount_eq_countVal, rowCount_eq_countVal]
    exact le_of_le_of_eq (h3 w) h2

theorem table_eq (t1 t2 : Table) (h1 : t1.schema = t2.schema) (h2 : t1.rows = t2.rows) :
    t1 = t2 := by
  cases t1
  cases t2
  simp_all

theorem apply_function_rows (p : DataProcessor) (func : Row → Value) (column : String) :
    (apply_function p func column).df.rows =
      p.df.rows.map (fun r0 => rowSet r0 column (func r0)) := by
  rw [apply_function]
  exact setColumn_rows_map p.df column func

theorem replace_values_rows (p : DataProcessor) (column : String)
    (value_map : List (String × String)) :
    (replace_values p column value_map).df.rows =
      p.df.rows.map (fun r0 => rowSet r0 column (replaceValue value_map (rowGet r0 column))) := by
  rw [replace_values]
  show (setColumn p.df column ((colValues p.df column).map (replaceValue value_map))).rows = _
  have hvals : (colValues p.df column).map (replaceValue value_map) =
      p.df.rows.map (fun r0 => replaceValue value_map (rowGet r0 column)) := by
    rw [colValues, List.map_map]
    rfl
  rw [hvals]
  exact setColumn_rows_map p.df column _

/-- C3: the Transform Engine's fill_missing returns the primary field whenever it is
non-null, regardless of the fallback field; returns the fallback field when the
primary field is null; propagates null (rather than failing) when both fields are
null; and the source's fill_city is exactly this function at primary field City and
fallback field State/Province. -/
theorem fill_missing_ok (row : Row) (primary_field fallback_field : String) :
    (∀ v, rowGet row primary_field = some v →
      fill_missing row primary_field fallback_field = some v)
    ∧ (rowGet row primary_field = none →
        fill_missing row primary_field fallback_field = rowGet row fallback_field)
    ∧ (rowGet row primary_field = none → rowGet row fallback_field = none →
        fill_missing row primary_field fallback_field = none)
    ∧ fill_city row = fill_missing row "City" "State/Province" := by
  refine ⟨?_, ?_, ?_, rfl⟩
  · intro v hv
    simp [fill_missing, hv]
  · intro h
    simp [fill_missing, h]
  · intro h1 h2
    simp [fill_missing, h1, h2]

/-- Witness for C3: evaluating the claim theorem on a concrete row whose City is
null and whose State/Province is WA yields WA. -/
theorem fill_missing_ok_witness :
    fill_missing [("City", none), ("State/Province", some "WA")] "City" "State/Province" =
      rowGet [("City", none), ("State/Province", some "WA")] "State/Province" :=
  (fill_missing_ok [("City", none), ("State/Province", some "WA")]
    "City" "State/Province").2.1 (by decide)

/-- C4: filter_by_country returns a new table containing exactly the rows whose
Country column equals the expected value, and the processor's own table is unchanged
by the call, so its row count and contents are what they were. -/
theorem filter_by_country_ok (p : DataProcessor) (code : String) :
    ((filter_by_country p code).2 = p)
    ∧ ((filter_by_country p code).2.df.rows.length = p.df.rows.length)
    ∧ (∀ r, r ∈ (filter_by_country p code).1.rows ↔
        r ∈ p.df.rows ∧ rowGet r "Country" = some code) := by
  refine ⟨rfl, rfl, ?_⟩
  intro r
  simp [filter_by_country, List.mem_filter]

/-- Witness for C4: on a concrete two-row table, a US row is in the US filtrate. -/
theorem filter_by_country_ok_witness :
    [("Country", some "US")] ∈
      (filter_by_country ⟨⟨["Country"], [[("Country", some "US")], [("Country", some "CN")]]⟩⟩
        "US").1.rows :=
  ((filter_by_country_ok
      ⟨⟨["Country"], [[("Country", some "US")], [("Country", some "CN")]]⟩⟩ "US").2.2
    [("Country", some "US")]).mpr ⟨by decide, by decide⟩

/-- C10: the filtered table keeps the input's full column schema and relative row
order: its rows are exactly the ordered subsequence (a sublist) of the input's rows
satisfying the equality predicate, each retained row kept whole. -/
theorem filter_by_country_order (p : DataProcessor) (code : String) :
    ((filter_by_country p code).1.schema = p.df.schema)
    ∧ ((filter_by_country p code).1.rows =
        p.df.rows.filter (fun r => rowGet r "Country" == some code))
    ∧ List.Sublist (filter_by_country p code).1.rows p.df.rows :=
  ⟨rfl, rfl, List.filter_sublist _⟩

/-- C8: missing_data reports exactly the schema columns having at least one null
cell, each with its actual null count: a pair (c, k) is reported iff c is a schema
column whose null count is k and k is positive, so no zero count is ever reported. -/
theorem missing_data_ok (p : DataProcessor) (c : String) (k : Nat) :
    (c, k) ∈ missing_data p ↔ c ∈ p.df.schema ∧ k = nullCount p.df c ∧ 0 < k := by
  rw [missing_data, List.mem_filter]
  simp only [List.mem_map]
  constructor
  · rintro ⟨⟨c0, hc0, heq⟩, hpos⟩
    obtain ⟨h1, h2⟩ : c0 = c ∧ (colValues p.df c0).countP (fun v => v.isNone) = k := by
      simpa [Prod.ext_iff] using heq
    subst h1
    rw [nullCount_eq_colValues] at h2
    exact ⟨hc0, h2.symm, by simpa using hpos⟩
  · rintro ⟨hc, hk, hpos⟩
    refine ⟨⟨c, hc, ?_⟩, by simpa using hpos⟩
    rw [Prod.ext_iff]
    refine ⟨rfl, ?_⟩
    rw [nullCount_eq_colValues, hk]

/-- Witness for C8: a one-column table with a single null cell reports that column
with null count one. -/
theorem missing_data_ok_witness :
    ("City", 1) ∈ missing_data ⟨⟨["City"], [[("City", none)]]⟩⟩ :=
  (missing_data_ok ⟨⟨["City"], [[("City", none)]]⟩⟩ "City" 1).mpr
    ⟨by decide, by decide, by decide⟩

/-- C9: apply_function preserves the table's row count and row order, overwrites
only the target column, and writes into each row the function's value at that row's
pre-call field values (the whole new column is computed from the original frame
before being assigned). -/
theorem apply_function_ok (p : DataProcessor) (func : Row → Value) (column : String)
    (i : Nat) (r : Row) (h : p.df.rows[i]? = some r) :
    ((apply_function p func column).df.rows.length = p.df.rows.length)
    ∧ ∃ r', (apply_function p func column).df.rows[i]? = some r'
        ∧ rowGet r' column = func r
        ∧ ∀ c', c' ≠ column → rowGet r' c' = rowGet r c' := by
  constructor
  · rw [apply_function_rows, List.length_map]
  · refine ⟨rowSet r column (func r), ?_, ?_, ?_⟩
    · rw [apply_function_rows, List.getElem?_map, h]
      rfl
    · exact rowGet_rowSet_self r column (func r)
    · intro c' hc'
      exact rowGet_rowSet_ne r column c' (func r) hc'

/-- Witness for C9: filling the City of a concrete one-row table writes the computed
value into that row. -/
theorem apply_function_ok_witness :
    ∃ r', (apply_function ⟨⟨["City"], [[("City", none)]]⟩⟩
        (fun _ => some "X") "City").df.rows[0]? = some r'
      ∧ rowGet r' "City" = some "X" := by
  obtain ⟨hlen, r', h1, h2, h3⟩ :=
    apply_function_ok ⟨⟨["City"], [[("City", none)]]⟩⟩ (fun _ => some "X") "City"
      0 [("City", none)] (by decide)
  exact ⟨r', h1, h2⟩

/-- C5: replace_values preserves the row count and, in every row, rewrites the
target column's value old to the map's image of old exactly when old is a key of the
map, leaves the cell unchanged otherwise (missing cells included), touches no other
column, and is total, so values absent from the map cannot make it fail. -/
theorem replace_values_ok (p : DataProcessor) (column : String)
    (value_map : List (String × String)) (i : Nat) (r : Row)
    (h : p.df.rows[i]? = some r) :
    ((replace_values p column value_map).df.rows.length = p.df.rows.length)
    ∧ ∃ r', (replace_values p column value_map).df.rows[i]? = some r'
        ∧ (∀ old w, rowGet r column = some old → dictGet value_map old = some w →
            rowGet r' column = some w)
        ∧ (∀ old, rowGet r column = some old → dictGet value_map old = none →
            rowGet r' column = some old)
        ∧ (rowGet r column = none → rowGet r' column = none)
        ∧ (∀ c', c' ≠ column → rowGet r' c' = rowGet r c') := by
  constructor
  · rw [replace_values_rows, List.length_map]
  · refine ⟨rowSet r column (replaceValue value_map (rowGet r column)), ?_, ?_, ?_, ?_, ?_⟩
    · rw [replace_values_rows, List.getElem?_map, h]
      rfl
    · intro old w h1 h2
      rw [rowGet_rowSet_self, h1]
      simp [replaceValue, h2]
    · intro old h1 h2
      rw [rowGet_rowSet_self, h1]
      simp [replaceValue, h2]
    · intro h1
      rw [rowGet_rowSet_self, h1]
      rfl
    · intro c' hc'
      exact rowGet_rowSet_ne r column c' _ hc'

/-- Witness for C5: remapping Brand over a concrete one-row table rewrites a mapped
value and the call goes through on a map that does not cover other values. -/
theorem replace_values_ok_witness :
    ∃ r', (replace_values ⟨⟨["Brand"], [[("Brand", some "Teavana")]]⟩⟩ "Brand"
        [("Teavana", "Starbucks")]).df.rows[0]? = some r'
      ∧ rowGet r' "Brand" = some "Starbucks" := by
  obtain ⟨hlen, r', h1, h2, h3, h4, h5⟩ :=
    replace_values_ok ⟨⟨["Brand"], [[("Brand", some "Teavana")]]⟩⟩ "Brand"
      [("Teavana", "Starbucks")] 0 [("Brand", some "Teavana")] (by decide)
  exact ⟨r', h1, h2 "Teavana" "Starbucks" (by decide) (by decide)⟩

theorem dictGet_mem_snd (value_map : List (String × String)) (k w : String)
    (h : dictGet value_map k = some w) : ∃ q ∈ value_map, q.2 = w := by
  induction value_map with
  | nil => simp [dictGet] at h
  | cons q0 m ih =>
    obtain ⟨k0, w0⟩ := q0
    by_cases hk : k0 = k
    · rw [dictGet, if_pos hk] at h
      exact ⟨(k0, w0), List.mem_cons_self _ _, Option.some_inj.mp h⟩
    · rw [dictGet, if_neg hk] at h
      obtain ⟨q, hq1, hq2⟩ := ih h
      exact ⟨q, List.mem_cons_of_mem _ hq1, hq2⟩

theorem replaceValue_stable (value_map : List (String × String))
    (h : ∀ q ∈ value_map, dictGet value_map q.2 = none ∨ dictGet value_map q.2 = some q.2)
    (u : Value) :
    replaceValue value_map (replaceValue value_map u) = replaceValue value_map u := by
  cases u with
  | none => rfl
  | some s =>
    cases hd : dictGet value_map s with
    | none => simp [replaceValue, hd]
    | some w =>
      obtain ⟨q, hq, hq2⟩ := dictGet_mem_snd value_map s w hd
      rcases h q hq with hw | hw
      · rw [hq2] at hw
        simp [replaceValue, hd, hw]
      · rw [hq2] at hw
        simp [replaceValue, hd, hw]

/-- C7 counterexample: with the value map sending a to b and b to c, applying
replace_values twice to a one-cell table differs from applying it once, since the
cell moves a to b and then b to c. -/
theorem replace_values_not_idempotent :
    replace_values (replace_values ⟨⟨["Brand"], [[("Brand", some "a")]]⟩⟩ "Brand"
        [("a", "b"), ("b", "c")]) "Brand" [("a", "b"), ("b", "c")]
      ≠ replace_values ⟨⟨["Brand"], [[("Brand", some "a")]]⟩⟩ "Brand"
        [("a", "b"), ("b", "c")] := by
  decide

/-- C7 (amended): applying replace_values twice with the same value map yields the
same table as applying it once whenever every image value of the map is either
absent from the map's keys or mapped to itself; and unconditionally, a cell whose
value is not a key of the map is left unchanged even by the repeated application. -/
theorem replace_values_idempotent (p : DataProcessor) (column : String)
    (value_map : List (String × String)) :
    ((∀ q ∈ value_map, dictGet value_map q.2 = none ∨ dictGet value_map q.2 = some q.2) →
      replace_values (replace_values p column value_map) column value_map =
        replace_values p column value_map)
    ∧ (∀ (i : Nat) (r : Row) (old : String), p.df.rows[i]? = some r → rowGet r column = some old →
        dictGet value_map old = none →
        ∃ r', (replace_values (replace_values p column value_map) column
            value_map).df.rows[i]? = some r' ∧ rowGet r' column = some old) := by
  have hrows2 : ∀ q : DataProcessor,
      (replace_values (replace_values q column value_map) column value_map).df.rows =
        q.df.rows.map (fun r0 =>
          rowSet r0 column (replaceValue value_map
            (replaceValue value_map (rowGet r0 column)))) := by
    intro q
    rw [replace_values_rows, replace_values_rows, List.map_map]
    refine List.map_congr_left ?_
    intro r0 _
    show rowSet (rowSet r0 column (replaceValue value_map (rowGet r0 column))) column
        (replaceValue value_map
          (rowGet (rowSet r0 column (replaceValue value_map (rowGet r0 column))) column)) = _
    rw [rowGet_rowSet_self, rowSet_rowSet]
  constructor
  · intro h
    have hdf : (replace_values (replace_values p column value_map) column value_map).df =
        (replace_values p column value_map).df := by
      refine table_eq _ _ ?_ ?_
      · show (setColumn (replace_values p column value_map).df column _).schema = _
        exact schema_setColumn_of_mem _ _ _ (mem_schema_setColumn p.df column _)
      · rw [hrows2 p, replace_values_rows]
        refine List.map_congr_left ?_
        intro r0 _
        rw [replaceValue_stable value_map h]
    cases hp : replace_values (replace_values p column value_map) column value_map
    cases hq : replace_values p column value_map
    rw [hp, hq] at hdf
    simp_all
  · intro i r old hi h1 h2
    refine ⟨rowSet r column (replaceValue value_map
      (replaceValue value_map (rowGet r column))), ?_, ?_⟩
    · rw [hrows2 p, List.getElem?_map, hi]
      rfl
    · rw [rowGet_rowSet_self, h1]
      simp [replaceValue, h2]

/-- Witness for C7: the map collapsing two brand variants to the canonical label
(whose image is a key mapped to itself) makes the second application a no-op on a
concrete table, and a non-key cell survives both applications. -/
theorem replace_values_idempotent_witness :
    replace_values (replace_values ⟨⟨["Brand"], [[("Brand", some "Teavana")],
        [("Brand", some "Evolution Fresh")]]⟩⟩ "Brand"
        [("Teavana", "Starbucks"), ("Starbucks", "Starbucks")]) "Brand"
        [("Teavana", "Starbucks"), ("Starbucks", "Starbucks")] =
      replace_values ⟨⟨["Brand"], [[("Brand", some "Teavana")],
        [("Brand", some "Evolution Fresh")]]⟩⟩ "Brand"
        [("Teavana", "Starbucks"), ("Starbucks", "Starbucks")] :=
  (replace_values_idempotent ⟨⟨["Brand"], [[("Brand", some "Teavana")],
      [("Brand", some "Evolution Fresh")]]⟩⟩ "Brand"
      [("Teavana", "Starbucks"), ("Starbucks", "Starbucks")]).1 (by decide)

/-- C6: the data series plotted for the top n values of a column lists (value,
count) pairs sorted descending by count, has length min(n, number of distinct
non-null values of the column), counts each listed value's rows correctly, and on
the three-row US/US/CN table with the default n = 10 it is exactly
(US, 2), (CN, 1) in that order. -/
theorem top_counts_ok (df : Table) (column : String) (n : Nat) (hn : 0 < n) :
    ((top_counts df column n).length = min n (distinctCount df column))
    ∧ (top_counts df column n).Sorted cntGe
    ∧ (∀ q, q ∈ top_counts df column n → q.2 = rowCount df column q.1)
    ∧ plot_top_countries_data
        ⟨["Store Number", "Country", "City"],
         [[("Store Number", some "1"), ("Country", some "US"), ("City", some "Seattle")],
          [("Store Number", some "2"), ("Country", some "US"), ("City", some "Seattle")],
          [("Store Number", some "3"), ("Country", some "CN"), ("City", some "Beijing")]]⟩
        10 = [("US", 2), ("CN", 1)] := by
  refine ⟨?_, ?_, ?_, by decide⟩
  · rw [top_counts, List.length_take, value_counts_length, nunique_eq_distinctCount]
  · exact (value_counts_sorted _).sublist (List.take_sublist _ _)
  · intro q hq
    have hmem : q ∈ value_counts (colValues df column) := List.take_subset _ _ hq
    obtain ⟨h1, h2⟩ := (mem_value_counts _ q.1 q.2).mp hmem
    rw [rowCount_eq_countVal]
    exact h2

/-- Witness for C6: on a concrete one-row table with n = 1 the series has length
min(1, 1) = 1. -/
theorem top_counts_ok_witness :
    (top_counts ⟨["Country"], [[("Country", some "US")]]⟩ "Country" 1).length =
      min 1 (distinctCount ⟨["Country"], [[("Country", some "US")]]⟩ "Country") :=
  (top_counts_ok ⟨["Country"], [[("Country", some "US")]]⟩ "Country" 1 (by decide)).1

theorem value_counts_singleton (v : String) : value_counts [some v] = [(v, 1)] := by
  simp [value_counts, dedupF, dedupAux, countVal, List.insertionSort]

theorem nunique_singleton (v : String) : nunique [some v] = 1 := by
  simp [nunique, dedupF, dedupAux]

theorem analyze_data_eq_some (df : Table) (q1 q2 : String × Nat)
    (h1 : (value_counts (colValues df "Country")).head? = some q1)
    (h2 : (value_counts (colValues df "City")).head? = some q2) :
    analyze_data df = some ⟨nunique (colValues df "Store Number"),
      nunique (colValues df "Country"), q1.1, q2.1⟩ := by
  rw [analyze_data, h1, h2]

/-- C2 counterexample: a table with one row whose City is null makes analyze_data
fail (the City frequency index is empty, so selecting its first entry raises), even
though the table has a row, so summarize does not succeed on every table with at
least one row. -/
theorem analyze_data_nonempty_failure :
    analyze_data ⟨["Store Number", "Country", "City"],
      [[("Store Number", some "1"), ("Country", some "US"), ("City", none)]]⟩ = none
    ∧ (⟨["Store Number", "Country", "City"],
        [[("Store Number", some "1"), ("Country", some "US"), ("City", none)]]⟩ :
        Table).rows.length = 1 := by
  decide

/-- C2 (amended): analyze_data fails on every table with zero rows, and succeeds,
returning a fully populated statistics record, on every table having at least one
non-null country cell and at least one non-null city cell. -/
theorem analyze_data_empty_ok (t : Table) :
    (t.rows = [] → analyze_data t = none)
    ∧ ((∃ r ∈ t.rows, (rowGet r "Country").isSome) →
        (∃ r ∈ t.rows, (rowGet r "City").isSome) →
        ∃ s, analyze_data t = some s) := by
  constructor
  · intro h
    have hc : colValues t "Country" = [] := by
      rw [colValues, h]
      rfl
    have ht : colValues t "City" = [] := by
      rw [colValues, h]
      rfl
    rw [analyze_data, hc, ht]
    rfl
  · rintro ⟨r1, hr1, hs1⟩ ⟨r2, hr2, hs2⟩
    obtain ⟨v1, hv1⟩ := Option.isSome_iff_exists.mp hs1
    obtain ⟨v2, hv2⟩ := Option.isSome_iff_exists.mp hs2
    have h1 : some v1 ∈ colValues t "Country" := by
      rw [colValues, List.mem_map]
      exact ⟨r1, hr1, hv1⟩
    have h2 : some v2 ∈ colValues t "City" := by
      rw [colValues, List.mem_map]
      exact ⟨r2, hr2, hv2⟩
    obtain ⟨q1, hq1⟩ := value_counts_head_isSome _ v1 h1
    obtain ⟨q2, hq2⟩ := value_counts_head_isSome _ v2 h2
    exact ⟨_, analyze_data_eq_some t q1 q2 hq1 hq2⟩

/-- Witness for C2: on a concrete one-row table with non-null country and city,
analyze_data succeeds. -/
theorem analyze_data_empty_ok_witness :
    ∃ s, analyze_data ⟨["Store Number", "Country", "City"],
      [[("Store Number", some "1"), ("Country", some "US"), ("City", some "Seattle")]]⟩ =
        some s :=
  (analyze_data_empty_ok ⟨["Store Number", "Country", "City"],
      [[("Store Number", some "1"), ("Country", some "US"), ("City", some "Seattle")]]⟩).2
    ⟨[("Store Number", some "1"), ("Country", some "US"), ("City", some "Seattle")],
      by decide, by decide⟩
    ⟨[("Store Number", some "1"), ("Country", some "US"), ("City", some "Seattle")],
      by decide, by decide⟩

/-- C1 counterexample: on a one-row table whose store identifier is null (country US,
city Seattle), analyze_data returns total_stores = 0 rather than 1, because nunique
ignores null cells; so the claim fails on this non-empty table. -/
theorem analyze_data_one_row_cex :
    analyze_data ⟨["Store Number", "Country", "City"],
      [[("Store Number", none), ("Country", some "US"), ("City", some "Seattle")]]⟩ =
      some ⟨0, 1, "US", "Seattle"⟩ := by
  decide

/-- C1 (amended): on every table with at least one non-null country cell and at
least one non-null city cell, analyze_data returns a record whose total_stores and
total_countries are the counts of distinct non-null values of the store-identifier
and country columns, and whose top_country and top_city each achieve the maximum
row-count in their column; on a one-row such table it returns total_countries = 1,
that row's country and city values, and total_stores = 1 provided the row's store
identifier is non-null. -/
theorem analyze_data_ok (t : Table)
    (hco : ∃ r ∈ t.rows, (rowGet r "Country").isSome)
    (hci : ∃ r ∈ t.rows, (rowGet r "City").isSome) :
    ∃ s, analyze_data t = some s
      ∧ s.total_stores = distinctCount t "Store Number"
      ∧ s.total_countries = distinctCount t "Country"
      ∧ isTopValue t "Country" s.top_country
      ∧ isTopValue t "City" s.top_city
      ∧ (∀ r, t.rows = [r] →
          ((rowGet r "Store Number").isSome → s.total_stores = 1)
          ∧ s.total_countries = 1
          ∧ some s.top_country = rowGet r "Country"
          ∧ some s.top_city = rowGet r "City") := by
  obtain ⟨r1, hr1, hs1⟩ := hco
  obtain ⟨r2, hr2, hs2⟩ := hci
  obtain ⟨v1, hv1⟩ := Option.isSome_iff_exists.mp hs1
  obtain ⟨v2, hv2⟩ := Option.isSome_iff_exists.mp hs2
  have h1 : some v1 ∈ colValues t "Country" := by
    rw [colValues, List.mem_map]
    exact ⟨r1, hr1, hv1⟩
  have h2 : some v2 ∈ colValues t "City" := by
    rw [colValues, List.mem_map]
    exact ⟨r2, hr2, hv2⟩
  obtain ⟨q1, hq1⟩ := value_counts_head_isSome _ v1 h1
  obtain ⟨q2, hq2⟩ := value_counts_head_isSome _ v2 h2
  refine ⟨⟨nunique (colValues t "Store Number"), nunique (colValues t "Country"),
    q1.1, q2.1⟩, analyze_data_eq_some t q1 q2 hq1 hq2, nunique_eq_distinctCount t _,
    nunique_eq_distinctCount t _, isTopValue_of_head t "Country" q1 hq1,
    isTopValue_of_head t "City" q2 hq2, ?_⟩
  intro r hr
  have hr1r : r1 = r := by
    rw [hr] at hr1
    simpa using hr1
  have hr2r : r2 = r := by
    rw [hr] at hr2
    simpa using hr2
  have hv1r : rowGet r "Country" = some v1 := by
    rw [← hr1r]
    exact hv1
  have hv2r : rowGet r "City" = some v2 := by
    rw [← hr2r]
    exact hv2
  have hcc : colValues t "Country" = [some v1] := by
    rw [colValues, hr, List.map_cons, List.map_nil, hv1r]
  have hct : colValues t "City" = [some v2] := by
    rw [colValues, hr, List.map_cons, List.map_nil, hv2r]
  refine ⟨?_, ?_, ?_, ?_⟩
  · intro hsome
    obtain ⟨u, hu⟩ := Option.isSome_iff_exists.mp hsome
    have hcs : colValues t "Store Number" = [some u] := by
      rw [colValues, hr, List.map_cons, List.map_nil, hu]
    show nunique (colValues t "Store Number") = 1
    rw [hcs, nunique_singleton]
  · show nunique (colValues t "Country") = 1
    rw [hcc, nunique_singleton]
  · rw [hcc, value_counts_singleton] at hq1
    have hq : q1 = (v1, 1) := by
      simpa using hq1.symm
    show some q1.1 = rowGet r "Country"
    rw [hq, hv1r]
  · rw [hct, value_counts_singleton] at hq2
    have hq : q2 = (v2, 1) := by
      simpa using hq2.symm
    show some q2.1 = rowGet r "City"
    rw [hq, hv2r]

/-- Witness for C1: applying the amended claim to the three-row US/US/CN table
yields a record with the distinct store count of that table. -/
theorem analyze_data_ok_witness :
    ∃ s, analyze_data ⟨["Store Number", "Country", "City"],
      [[("Store Number", some "1"), ("Country", some "US"), ("City", some "Seattle")],
       [("Store Number", some "2"), ("Country", some "US"), ("City", some "Seattle")],
       [("Store Number", some "3"), ("Country", some "CN"), ("City", some "Beijing")]]⟩ =
        some s
      ∧ s.total_stores = distinctCount ⟨["Store Number", "Country", "City"],
        [[("Store Number", some "1"), ("Country", some "US"), ("City", some "Seattle")],
         [("Store Number", some "2"), ("Country", some "US"), ("City", some "Seattle")],
         [("Store Number", some "3"), ("Country", some "CN"), ("City", some "Beijing")]]⟩
        "Store Number" := by
  obtain ⟨s, ha, hb, hrest⟩ := analyze_data_ok ⟨["Store Number", "Country", "City"],
    [[("Store Number", some "1"), ("Country", some "US"), ("City", some "Seattle")],
     [("Store Number", some "2"), ("Country", some "US"), ("City", some "Seattle")],
     [("Store Number", some "3"), ("Country", some "CN"), ("City", some "Beijing")]]⟩
    ⟨[("Store Number", some "1"), ("Country", some "US"), ("City", some "Seattle")],
      by decide, by decide⟩
    ⟨[("Store Number", some "1"), ("Country", some "US"), ("City", some "Seattle")],
      by decide, by decide⟩
  exact ⟨s, ha, hb⟩

example :
    value_counts [some "US", some "US", none, some "CN"] = [("US", 2), ("CN", 1)] := by
  decide

example :
    analyze_data ⟨["Store Number", "Country", "City"], []⟩ = none := by
  decide

example :
    analyze_data ⟨["Store Number", "Country", "City"],
      [[("Store Number", some "1"), ("Country", some "US"), ("City", some "Seattle")]]⟩ =
      some ⟨1, 1, "US", "Seattle"⟩ := by
  decide

end StarbucksAnalysis
